import Mathlib

/-!
Verification of the audio pipeline in `src/services/audioUtils.ts`.

Shallow embedding conventions:
- a JS `Uint8Array` is a `List Nat` whose elements are below 256;
- `DataView.setUint32 (off, v, true)` stores `v` modulo `2 ^ 32` in four
  little-endian bytes, `setUint16` likewise modulo `2 ^ 16` in two bytes;
- `atob` follows the WHATWG forgiving-base64 algorithm: strip ASCII
  whitespace, strip up to two trailing padding signs when the length is a
  multiple of four, reject a remainder of one or any non-alphabet code
  point, then decode six bits per character;
- thrown JS exceptions are `Except.error`; a `try`/`catch` is modelled by
  matching on the `Except` value of its body;
- the browser-native `decodeAudioData` call is external to the repository,
  so `playAudioData` takes its success as an oracle parameter;
- the `Float32` sample normalization divides an integer of magnitude at
  most `2 ^ 15` by `2 ^ 15`, which is exact in both `f64` and `f32`, so it
  is modelled without loss over `ℚ`.
-/

-- Decidable equality of `Except` values, so that the embedding can be
-- evaluated on concrete payloads.
deriving instance DecidableEq for Except

namespace AudioUtils

/-- JS exceptions relevant to this module: the `InvalidCharacterError`
thrown by `atob` on malformed base64, and the `RangeError` thrown by the
`Int16Array` constructor on a buffer whose byte length is odd. -/
inductive JsError
  | invalidCharacter
  | rangeError
deriving DecidableEq, Repr

/-- Two little-endian bytes of `v` (mod `2 ^ 16`), as written by
`DataView.setUint16 (off, v, true)`. -/
def u16le (v : Nat) : List Nat :=
  [v % 256, (v / 256) % 256]

/-- Four little-endian bytes of `v` (mod `2 ^ 32`), as written by
`DataView.setUint32 (off, v, true)`. -/
def u32le (v : Nat) : List Nat :=
  [v % 256, (v / 256) % 256, (v / 65536) % 256, (v / 16777216) % 256]

/-- Spec-side little-endian u32 decoder: the number encoded by the four
bytes at offset `off` (missing positions read as 0). -/
def readU32le (bytes : List Nat) (off : Nat) : Nat :=
  bytes.getD off 0 + 256 * bytes.getD (off + 1) 0
    + 65536 * bytes.getD (off + 2) 0 + 16777216 * bytes.getD (off + 3) 0

/-- `hasAudioHeader` from `audioUtils.ts`: magic-signature sniffing that
distinguishes container files from raw PCM.  The source's
`bytes.length < 4` early return is the wildcard case of the match (a list
fails the four-cons pattern exactly when its length is below 4, and under
that guard `bytes[0] .. bytes[3]` are the first four elements); the RIFF,
ID3, OggS and MPEG-frame-sync signatures are then checked in source
order, the sync check keeping its redundant `bytes.length > 1` conjunct. -/
def hasAudioHeader (bytes : List Nat) : Bool :=
  match bytes with
  | b0 :: b1 :: b2 :: b3 :: rest =>
    if b0 = 0x52 ∧ b1 = 0x49 ∧ b2 = 0x46 ∧ b3 = 0x46 then true
    else if b0 = 0x49 ∧ b1 = 0x44 ∧ b2 = 0x33 then true
    else if b0 = 0x4F ∧ b1 = 0x67 ∧ b2 = 0x67 ∧ b3 = 0x53 then true
    else if 1 < (b0 :: b1 :: b2 :: b3 :: rest).length
        ∧ b0 = 0xFF ∧ b1 &&& 0xE0 = 0xE0 then true
    else false
  | _ => false

/-- The 44 header bytes synthesized by `addWavHeader` for `dataLen` sample
bytes: each `writeString` / `setUint16` / `setUint32` call of the source,
laid out at its offset (the writes cover offsets 0–43 disjointly). -/
def wavHeader (dataLen sampleRate numChannels : Nat) : List Nat :=
  [0x52, 0x49, 0x46, 0x46]
    ++ u32le (36 + dataLen)
    ++ [0x57, 0x41, 0x56, 0x45]
    ++ [0x66, 0x6D, 0x74, 0x20]
    ++ u32le 16
    ++ u16le 1
    ++ u16le numChannels
    ++ u32le sampleRate
    ++ u32le (sampleRate * numChannels * 2)
    ++ u16le (numChannels * 2)
    ++ u16le 16
    ++ [0x64, 0x61, 0x74, 0x61]
    ++ u32le dataLen

/-- `addWavHeader` from `audioUtils.ts`: the 44-byte canonical WAV/RIFF
header followed by the sample bytes copied verbatim. -/
def addWavHeader (samples : List Nat) (sampleRate numChannels : Nat) : List Nat :=
  wavHeader samples.length sampleRate numChannels ++ samples

/-- ASCII whitespace, removed by `atob` before decoding. -/
def isAsciiWhitespace (c : Char) : Bool :=
  c = '\t' ∨ c = '\n' ∨ c = '\x0c' ∨ c = '\r' ∨ c = ' '

/-- Value of one base64-alphabet character, `none` outside the alphabet. -/
def b64Index (c : Char) : Option Nat :=
  if 'A' ≤ c ∧ c ≤ 'Z' then some (c.toNat - 65)
  else if 'a' ≤ c ∧ c ≤ 'z' then some (c.toNat - 71)
  else if '0' ≤ c ∧ c ≤ '9' then some (c.toNat + 4)
  else if c = '+' then some 62
  else if c = '/' then some 63
  else none

/-- Strip one or two trailing padding signs, but only when the length is a
multiple of four (WHATWG forgiving-base64, step 2). -/
def stripBase64Padding (l : List Char) : List Char :=
  if l.length % 4 = 0 then
    if l.getLast? = some '=' then
      let l1 := l.dropLast
      if l1.getLast? = some '=' then l1.dropLast else l1
    else l
  else l

/-- Reassemble decoded 6-bit groups into bytes: four characters yield three
bytes; a trailing pair yields one byte and a trailing triple two bytes
(leftover low bits are discarded, as in forgiving-base64). -/
def b64Bytes : List Nat → List Nat
  | a :: b :: c :: d :: rest =>
      let n := a * 262144 + b * 4096 + c * 64 + d
      (n / 65536) % 256 :: (n / 256) % 256 :: n % 256 :: b64Bytes rest
  | [a, b] => [(a * 64 + b) / 16]
  | [a, b, c] => [(a * 4096 + b * 64 + c) / 1024, ((a * 4096 + b * 64 + c) / 4) % 256]
  | _ => []

/-- `decodeBase64` from `audioUtils.ts`: `atob` (forgiving base64) followed
by a byte-for-byte copy of the binary string's code units into a
`Uint8Array`, which is the identity since `atob` only emits code units
below 256.  A malformed input throws `InvalidCharacterError`. -/
def decodeBase64 (base64 : String) : Except JsError (List Nat) :=
  let data := base64.toList.filter (fun c => ! isAsciiWhitespace c)
  let data := stripBase64Padding data
  if data.length % 4 = 1 then Except.error JsError.invalidCharacter
  else
    match data.mapM b64Index with
    | none => Except.error JsError.invalidCharacter
    | some idxs => Except.ok (b64Bytes idxs)

/-- One signed 16-bit sample from a little-endian byte pair, as read by an
`Int16Array` view. -/
def int16OfPair (lo hi : Nat) : Int :=
  let v := lo + 256 * hi
  if v < 32768 then (v : Int) else (v : Int) - 65536

/-- The `Int16Array` view over the decoded buffer: little-endian signed
16-bit samples.  The constructor throws a `RangeError` when the byte
length is not a multiple of 2. -/
def toInt16List : List Nat → Except JsError (List Int)
  | [] => Except.ok []
  | [_] => Except.error JsError.rangeError
  | lo :: hi :: rest => (toInt16List rest).map (fun l => int16OfPair lo hi :: l)

/-- The per-sample normalization of the manual PCM fallback:
`channelData[i] = dataInt16[i] / 32768.0`, exact over `ℚ` because an
integer of magnitude at most `2 ^ 15` divided by `2 ^ 15` is representable
in `f32`. -/
def normalizeSample (v : Int) : ℚ :=
  (v : ℚ) / 32768

/-- Observable outcome of one `playAudioData` call: playback of the
container-decoded audio, playback of manually decoded PCM (with its
normalized samples), or a resolution after logging a caught error. -/
inductive PlayOutcome
  | playedDecoded
  | playedPCM (samples : List ℚ)
  | resolvedWithLoggedError (e : JsError)
deriving DecidableEq, Repr

/-- `playAudioData` from `audioUtils.ts`.  `primaryDecodeOk` is the oracle
for the browser-native `decodeAudioData` attempt (external code): `true`
means the container-aware decode resolves, `false` that it rejects.  The
result is `Except.error` exactly when an exception would propagate to the
caller; the outer `try`/`catch` of the source converts every thrown error
into a logged resolution. -/
def playAudioData (base64Audio : String) (primaryDecodeOk : Bool) :
    Except JsError PlayOutcome :=
  let body : Except JsError PlayOutcome :=
    match decodeBase64 base64Audio with
    | Except.error e => Except.error e
    | Except.ok bytes =>
      if primaryDecodeOk then
        Except.ok PlayOutcome.playedDecoded
      else
        match toInt16List bytes with
        | Except.error e => Except.error e
        | Except.ok dataInt16 =>
            Except.ok (PlayOutcome.playedPCM (dataInt16.map normalizeSample))
  match body with
  | Except.error e => Except.ok (PlayOutcome.resolvedWithLoggedError e)
  | Except.ok r => Except.ok r

/-- Blob bytes computed by `downloadAudio`: pass-through for a recognized
container, otherwise the WAV framing at fixed 24000 Hz, mono. -/
def downloadBlobBytes (bytes : List Nat) : List Nat :=
  if hasAudioHeader bytes then bytes else addWavHeader bytes 24000 1

/-- Observable outcome of one `downloadAudio` call: a save of the blob
bytes under the given filename, or a resolution after logging a caught
error (the whole body sits in a `try`/`catch`). -/
inductive DownloadResult
  | saved (blob : List Nat) (filename : String)
  | loggedError (e : JsError)
deriving DecidableEq, Repr

/-- `downloadAudio` from `audioUtils.ts`: decode, classify, wrap raw PCM
at 24000 Hz mono, save as `audio/wav`; any thrown error is caught and
logged, never rethrown. -/
def downloadAudio (base64Audio : String) (filename : String) : DownloadResult :=
  match decodeBase64 base64Audio with
  | Except.error e => DownloadResult.loggedError e
  | Except.ok bytes => DownloadResult.saved (downloadBlobBytes bytes) filename

/-- Blob bytes computed by `createAudioUrl`: pass-through for a recognized
container, otherwise the WAV framing at fixed 24000 Hz, mono. -/
def createAudioUrlBlobBytes (bytes : List Nat) : List Nat :=
  if hasAudioHeader bytes then bytes else addWavHeader bytes 24000 1

/-- `createAudioUrl` from `audioUtils.ts`: decode, classify, wrap raw PCM
at 24000 Hz mono, and build the object-URL blob.  There is no
`try`/`catch`, so a decode error propagates to the caller. -/
def createAudioUrl (base64Audio : String) : Except JsError (List Nat) :=
  (decodeBase64 base64Audio).map createAudioUrlBlobBytes

/-! ## Helper lemmas -/

/-- `getD` at position `n + k` reads position `k` of the `n`-fold tail. -/
theorem getD_drop_eq : ∀ (l : List Nat) (n k : Nat),
    l.getD (n + k) 0 = (l.drop n).getD k 0
  | _, 0, _ => by simp
  | [], _ + 1, _ => by simp
  | _ :: l, n + 1, k => by
      rw [List.drop_succ_cons, show n + 1 + k = n + k + 1 from by omega,
        List.getD_cons_succ]
      exact getD_drop_eq l n k

/-- Evaluate a little-endian u32 read once the tail at the offset is known. -/
theorem readU32le_of_drop (bytes : List Nat) (off v0 v1 v2 v3 : Nat)
    (rest : List Nat) (h : bytes.drop off = v0 :: v1 :: v2 :: v3 :: rest) :
    readU32le bytes off = v0 + 256 * v1 + 65536 * v2 + 16777216 * v3 := by
  have h0 := getD_drop_eq bytes off 0
  have h1 := getD_drop_eq bytes off 1
  have h2 := getD_drop_eq bytes off 2
  have h3 := getD_drop_eq bytes off 3
  rw [h] at h0 h1 h2 h3
  rw [Nat.add_zero] at h0
  unfold readU32le
  rw [h0, h1, h2, h3]
  rfl

/-- The four RIFF-chunk-length bytes start at offset 4. -/
theorem addWavHeader_drop4 (s : List Nat) (r c : Nat) :
    ∃ rest, (addWavHeader s r c).drop 4
      = (36 + s.length) % 256 :: (36 + s.length) / 256 % 256
        :: (36 + s.length) / 65536 % 256 :: (36 + s.length) / 16777216 % 256
        :: rest :=
  ⟨_, rfl⟩

/-- The four sample-rate bytes start at offset 24. -/
theorem addWavHeader_drop24 (s : List Nat) (r c : Nat) :
    ∃ rest, (addWavHeader s r c).drop 24
      = r % 256 :: r / 256 % 256 :: r / 65536 % 256 :: r / 16777216 % 256
        :: rest :=
  ⟨_, rfl⟩

/-- The four data-chunk-length bytes start at offset 40. -/
theorem addWavHeader_drop40 (s : List Nat) (r c : Nat) :
    ∃ rest, (addWavHeader s r c).drop 40
      = s.length % 256 :: s.length / 256 % 256 :: s.length / 65536 % 256
        :: s.length / 16777216 % 256 :: rest :=
  ⟨_, rfl⟩

/-- The framed output is exactly 44 bytes longer than the sample data. -/
theorem addWavHeader_length (s : List Nat) (r c : Nat) :
    (addWavHeader s r c).length = 44 + s.length := by
  simp [addWavHeader, wavHeader, u32le, u16le]
  omega

/-- A list of length at least 4 decomposes into four heads and a tail. -/
theorem exists_cons4 (bytes : List Nat) (h : 4 ≤ bytes.length) :
    ∃ a b c d rest, bytes = a :: b :: c :: d :: rest := by
  rcases bytes with _ | ⟨a, _ | ⟨b, _ | ⟨c, _ | ⟨d, rest⟩⟩⟩⟩
  · simp at h
  · simp at h
  · simp at h
  · simp at h
  · exact ⟨a, b, c, d, rest, rfl⟩

/-- Spec-side statement of the four magic signatures of the classifier. -/
def startsWithSignature (bytes : List Nat) : Prop :=
  bytes.take 4 = [0x52, 0x49, 0x46, 0x46]
    ∨ bytes.take 3 = [0x49, 0x44, 0x33]
    ∨ bytes.take 4 = [0x4F, 0x67, 0x67, 0x53]
    ∨ (bytes.getD 0 0 = 0xFF ∧ (bytes.getD 1 0) &&& 0xE0 = 0xE0)

/-- A buffer that starts with the RIFF signature is always classified as a
container. -/
theorem hasAudioHeader_of_riff (bytes : List Nat)
    (h : bytes.take 4 = [0x52, 0x49, 0x46, 0x46]) :
    hasAudioHeader bytes = true := by
  have hlen : 4 ≤ bytes.length := by
    have h4 := congrArg List.length h
    rw [List.length_take] at h4
    simp at h4
    omega
  obtain ⟨a, b, c, d, rest, rfl⟩ := exists_cons4 bytes hlen
  have ht : (a :: b :: c :: d :: rest).take 4 = [a, b, c, d] := rfl
  rw [ht] at h
  simp at h
  obtain ⟨rfl, rfl, rfl, rfl⟩ := h
  simp [hasAudioHeader]

/-- A buffer of even byte length has a well-defined Int16 view. -/
theorem toInt16List_even : ∀ (bytes : List Nat), bytes.length % 2 = 0 →
    ∃ l, toInt16List bytes = Except.ok l
  | [], _ => ⟨[], rfl⟩
  | [_], h => by simp at h
  | lo :: hi :: rest, h => by
      have h2 : rest.length % 2 = 0 := by
        have hlen : (lo :: hi :: rest).length = rest.length + 2 := by simp
        omega
      obtain ⟨l, hl⟩ := toInt16List_even rest h2
      exact ⟨int16OfPair lo hi :: l, by simp [toInt16List, hl, Except.map]⟩

/-- The Int16 view over a buffer of odd byte length throws `RangeError`. -/
theorem toInt16List_odd : ∀ (bytes : List Nat), bytes.length % 2 = 1 →
    toInt16List bytes = Except.error JsError.rangeError
  | [], h => by simp at h
  | [_], _ => rfl
  | lo :: hi :: rest, h => by
      have h2 : rest.length % 2 = 1 := by
        have hlen : (lo :: hi :: rest).length = rest.length + 2 := by simp
        omega
      have ht := toInt16List_odd rest h2
      simp [toInt16List, ht, Except.map]

/-! ## Claim theorems -/

/-- C1 counterexample: the header fields are written by `setUint32`, which
stores its value modulo `2 ^ 32`, so for the positive sample rate
`R = 2 ^ 32` the framed output's bytes 24–27 decode to 0, not to `R` as
the claim states for every positive rate. -/
theorem addWavHeader_rate_counterexample :
    0 < 4294967296 ∧
    readU32le (addWavHeader [] 4294967296 1) 24 = 0 ∧
    readU32le (addWavHeader [] 4294967296 1) 24 ≠ 4294967296 := by
  decide

/-- C1 (amended): WAV framing round-trip for `N` sample bytes, a positive
sample rate `R < 2 ^ 32` and a positive channel count, provided
`36 + N < 2 ^ 32`: the framed output has length `44 + N`, bytes 0–3 are
"RIFF", bytes 4–7 decode little-endian to `36 + N`, bytes 8–11 are
"WAVE", bytes 24–27 decode to `R`, bytes 40–43 decode to `N`, and bytes
44 onward are the input bytes unchanged. -/
theorem addWavHeader_roundTrip (samples : List Nat) (r c : Nat)
    (hr0 : 0 < r) (_hchan : 0 < c) (hr : r < 4294967296)
    (hn : 36 + samples.length < 4294967296) :
    (addWavHeader samples r c).length = 44 + samples.length ∧
    (addWavHeader samples r c).take 4 = [0x52, 0x49, 0x46, 0x46] ∧
    readU32le (addWavHeader samples r c) 4 = 36 + samples.length ∧
    ((addWavHeader samples r c).drop 8).take 4 = [0x57, 0x41, 0x56, 0x45] ∧
    readU32le (addWavHeader samples r c) 24 = r ∧
    readU32le (addWavHeader samples r c) 40 = samples.length ∧
    (addWavHeader samples r c).drop 44 = samples := by
  obtain ⟨t1, h1⟩ := addWavHeader_drop4 samples r c
  obtain ⟨t2, h2⟩ := addWavHeader_drop24 samples r c
  obtain ⟨t3, h3⟩ := addWavHeader_drop40 samples r c
  refine ⟨addWavHeader_length samples r c, rfl, ?_, rfl, ?_, ?_, rfl⟩
  · rw [readU32le_of_drop _ _ _ _ _ _ _ h1]
    omega
  · rw [readU32le_of_drop _ _ _ _ _ _ _ h2]
    omega
  · rw [readU32le_of_drop _ _ _ _ _ _ _ h3]
    omega

/-- C1 witness: the round-trip theorem applied to two sample bytes at
24000 Hz mono. -/
theorem addWavHeader_roundTrip_witness :
    (addWavHeader [7, 9] 24000 1).length = 44 + [7, 9].length ∧
    readU32le (addWavHeader [7, 9] 24000 1) 24 = 24000 ∧
    (addWavHeader [7, 9] 24000 1).drop 44 = [7, 9] := by
  have h := addWavHeader_roundTrip [7, 9] 24000 1 (by decide) (by decide)
    (by decide) (by decide)
  exact ⟨h.1, h.2.2.2.2.1, h.2.2.2.2.2.2⟩

/-- C2: for buffers of length at least 4 the classifier accepts exactly
the four magic signatures, and every shorter buffer is classified as raw
PCM. -/
theorem hasAudioHeader_spec (bytes : List Nat) :
    (4 ≤ bytes.length →
      (hasAudioHeader bytes = true ↔ startsWithSignature bytes)) ∧
    (bytes.length < 4 → hasAudioHeader bytes = false) := by
  constructor
  · intro h4
    obtain ⟨a, b, c, d, rest, rfl⟩ := exists_cons4 bytes h4
    have hlen : 1 < (a :: b :: c :: d :: rest).length := by simp
    have ht4 : (a :: b :: c :: d :: rest).take 4 = [a, b, c, d] := rfl
    have ht3 : (a :: b :: c :: d :: rest).take 3 = [a, b, c] := rfl
    have hg0 : (a :: b :: c :: d :: rest).getD 0 0 = a := rfl
    have hg1 : (a :: b :: c :: d :: rest).getD 1 0 = b := rfl
    simp only [startsWithSignature, ht4, ht3, hg0, hg1, hasAudioHeader,
      List.cons.injEq, and_true]
    split_ifs with h1 h2 h3 h4s <;> simp_all
  · intro hlt
    rcases bytes with _ | ⟨a, _ | ⟨b, _ | ⟨c, _ | ⟨d, rest⟩⟩⟩⟩
    · rfl
    · rfl
    · rfl
    · rfl
    · simp at hlt
      omega

/-- C2 witness: the specification applied to an OggS-tagged buffer and to
a short buffer. -/
theorem hasAudioHeader_spec_witness :
    hasAudioHeader [0x4F, 0x67, 0x67, 0x53, 1] = true ∧
    hasAudioHeader [0x52, 0x49, 0x46] = false := by
  constructor
  · exact ((hasAudioHeader_spec [0x4F, 0x67, 0x67, 0x53, 1]).1 (by decide)).mpr
      (Or.inr (Or.inr (Or.inl (by decide))))
  · exact (hasAudioHeader_spec [0x52, 0x49, 0x46]).2 (by decide)

/-- C8 counterexample: the three-byte buffer consisting of exactly the
ID3 signature begins with `0x49 0x44 0x33`, yet the classifier returns
raw PCM because of the `length < 4` guard. -/
theorem hasAudioHeader_id3_counterexample :
    [0x49, 0x44, 0x33].take 3 = [0x49, 0x44, 0x33] ∧
    hasAudioHeader [0x49, 0x44, 0x33] ≠ true := by
  decide

/-- C8 (amended): every buffer of length at least 4 that begins with the
bytes `0x49 0x44 0x33` ("ID3") is classified as a container file. -/
theorem hasAudioHeader_id3 (bytes : List Nat) (h4 : 4 ≤ bytes.length)
    (h : bytes.take 3 = [0x49, 0x44, 0x33]) :
    hasAudioHeader bytes = true := by
  obtain ⟨a, b, c, d, rest, rfl⟩ := exists_cons4 bytes h4
  have ht : (a :: b :: c :: d :: rest).take 3 = [a, b, c] := rfl
  rw [ht] at h
  simp at h
  obtain ⟨rfl, rfl, rfl⟩ := h
  simp [hasAudioHeader]

/-- C8 witness: the amended theorem applied to a four-byte ID3 buffer. -/
theorem hasAudioHeader_id3_witness :
    hasAudioHeader [0x49, 0x44, 0x33, 0] = true :=
  hasAudioHeader_id3 [0x49, 0x44, 0x33, 0] (by decide) (by decide)

/-- C3: a payload whose decoded bytes are classified as a container — in
particular any payload whose bytes start with "RIFF" — is saved by
`downloadAudio` with the decoded bytes passed through unchanged, while a
payload classified as raw PCM is wrapped by the WAV framer at fixed
24000 Hz, mono. -/
theorem downloadAudio_noDoubleWrap (s fn : String) (bytes : List Nat)
    (hdec : decodeBase64 s = Except.ok bytes) :
    (hasAudioHeader bytes = true →
      downloadAudio s fn = DownloadResult.saved bytes fn) ∧
    (bytes.take 4 = [0x52, 0x49, 0x46, 0x46] →
      downloadAudio s fn = DownloadResult.saved bytes fn) ∧
    (hasAudioHeader bytes = false →
      downloadAudio s fn = DownloadResult.saved (addWavHeader bytes 24000 1) fn) := by
  refine ⟨?_, ?_, ?_⟩
  · intro h
    simp [downloadAudio, hdec, downloadBlobBytes, h]
  · intro h
    simp [downloadAudio, hdec, downloadBlobBytes, hasAudioHeader_of_riff bytes h]
  · intro h
    simp [downloadAudio, hdec, downloadBlobBytes, h]

/-- C3 witness: the base64 of the four bytes "RIFF" is saved unmodified. -/
theorem downloadAudio_noDoubleWrap_witness :
    downloadAudio "UklGRg==" "a.wav"
      = DownloadResult.saved [0x52, 0x49, 0x46, 0x46] "a.wav" :=
  (downloadAudio_noDoubleWrap "UklGRg==" "a.wav" [0x52, 0x49, 0x46, 0x46]
    (by decide)).2.1 (by decide)

/-- C4: a payload whose decoded bytes are classified as raw PCM is
materialized by `createAudioUrl` as exactly the WAV framer's output at
fixed 24000 Hz mono (so its blob is 44 bytes longer than the payload,
carries sample rate 24000 at bytes 24–27 and the payload length at bytes
40–43), while a container payload's blob is the decoded bytes
unchanged. -/
theorem createAudioUrl_wraps (s : String) (bytes : List Nat)
    (hdec : decodeBase64 s = Except.ok bytes) :
    (hasAudioHeader bytes = false →
      createAudioUrl s = Except.ok (addWavHeader bytes 24000 1) ∧
      (addWavHeader bytes 24000 1).length = 44 + bytes.length ∧
      readU32le (addWavHeader bytes 24000 1) 24 = 24000 ∧
      (bytes.length < 4294967296 →
        readU32le (addWavHeader bytes 24000 1) 40 = bytes.length)) ∧
    (hasAudioHeader bytes = true → createAudioUrl s = Except.ok bytes) := by
  constructor
  · intro h
    obtain ⟨t2, h2⟩ := addWavHeader_drop24 bytes 24000 1
    obtain ⟨t3, h3⟩ := addWavHeader_drop40 bytes 24000 1
    refine ⟨?_, addWavHeader_length bytes 24000 1, ?_, ?_⟩
    · simp [createAudioUrl, hdec, createAudioUrlBlobBytes, h, Except.map]
    · rw [readU32le_of_drop _ _ _ _ _ _ _ h2]
    · intro hlt
      rw [readU32le_of_drop _ _ _ _ _ _ _ h3]
      omega
  · intro h
    simp [createAudioUrl, hdec, createAudioUrlBlobBytes, h, Except.map]

/-- C4 witness: the base64 of the eight raw bytes encoding the Int16
samples 0, 16384, -16384, 32767 produces a 52-byte container with sample
rate 24000 and data length 8. -/
theorem createAudioUrl_wraps_witness :
    createAudioUrl "AAAAQADA/38="
      = Except.ok (addWavHeader [0, 0, 0, 64, 0, 192, 255, 127] 24000 1) ∧
    (addWavHeader [0, 0, 0, 64, 0, 192, 255, 127] 24000 1).length = 52 ∧
    readU32le (addWavHeader [0, 0, 0, 64, 0, 192, 255, 127] 24000 1) 24 = 24000 ∧
    readU32le (addWavHeader [0, 0, 0, 64, 0, 192, 255, 127] 24000 1) 40 = 8 := by
  have h := (createAudioUrl_wraps "AAAAQADA/38=" [0, 0, 0, 64, 0, 192, 255, 127]
    (by decide)).1 (by decide)
  refine ⟨h.1, ?_, h.2.2.1, ?_⟩
  · rw [h.2.1]
    rfl
  · have h40 := h.2.2.2 (by decide)
    rw [h40]
    rfl

/-- C9: for any one payload, `createAudioUrl` and `downloadAudio` compute
identical blob bytes — the two classify-then-wrap pipelines agree. -/
theorem urlDownloadAgreement (s fn : String) (bytes : List Nat) :
    createAudioUrlBlobBytes bytes = downloadBlobBytes bytes ∧
    (decodeBase64 s = Except.ok bytes →
      createAudioUrl s = Except.ok (createAudioUrlBlobBytes bytes) ∧
      downloadAudio s fn
        = DownloadResult.saved (createAudioUrlBlobBytes bytes) fn) := by
  refine ⟨rfl, ?_⟩
  intro hdec
  constructor
  · simp [createAudioUrl, hdec, Except.map]
  · simp [downloadAudio, hdec, downloadBlobBytes, createAudioUrlBlobBytes]

/-- C9 witness: the agreement at a concrete three-byte raw-PCM payload. -/
theorem urlDownloadAgreement_witness :
    createAudioUrlBlobBytes [0, 0, 0] = downloadBlobBytes [0, 0, 0] ∧
    createAudioUrl "AAAA" = Except.ok (createAudioUrlBlobBytes [0, 0, 0]) ∧
    downloadAudio "AAAA" "a.wav"
      = DownloadResult.saved (createAudioUrlBlobBytes [0, 0, 0]) "a.wav" := by
  have h := urlDownloadAgreement "AAAA" "a.wav" [0, 0, 0]
  exact ⟨h.1, (h.2 (by decide)).1, (h.2 (by decide)).2⟩

/-- C5: `playAudioData` never surfaces a decode error: every call
resolves with some outcome; when the primary container-aware decode
rejects, the manual PCM fallback runs, and when that fallback itself
throws, the error is logged and the call resolves without playing. -/
theorem playAudioData_neverThrows (s : String) (p : Bool) :
    (∃ out, playAudioData s p = Except.ok out) ∧
    (∀ bytes, decodeBase64 s = Except.ok bytes → p = false →
      (toInt16List bytes = Except.error JsError.rangeError →
        playAudioData s p
          = Except.ok (PlayOutcome.resolvedWithLoggedError JsError.rangeError)) ∧
      (∀ samples, toInt16List bytes = Except.ok samples →
        playAudioData s p
          = Except.ok (PlayOutcome.playedPCM (samples.map normalizeSample)))) := by
  constructor
  · cases hd : decodeBase64 s with
    | error e =>
        exact ⟨PlayOutcome.resolvedWithLoggedError e, by simp [playAudioData, hd]⟩
    | ok bytes =>
        cases p with
        | true => exact ⟨PlayOutcome.playedDecoded, by simp [playAudioData, hd]⟩
        | false =>
            cases ht : toInt16List bytes with
            | error e =>
                exact ⟨PlayOutcome.resolvedWithLoggedError e,
                  by simp [playAudioData, hd, ht]⟩
            | ok samples =>
                exact ⟨PlayOutcome.playedPCM (samples.map normalizeSample),
                  by simp [playAudioData, hd, ht]⟩
  · intro bytes hdec hp
    subst hp
    constructor
    · intro ht
      simp [playAudioData, hdec, ht]
    · intro samples ht
      simp [playAudioData, hdec, ht]

/-- C5 witness: a one-byte raw payload whose fallback throws still
resolves with a logged error. -/
theorem playAudioData_neverThrows_witness :
    playAudioData "AA" false
      = Except.ok (PlayOutcome.resolvedWithLoggedError JsError.rangeError) :=
  ((playAudioData_neverThrows "AA" false).2 [0] (by decide) rfl).1 (by decide)

/-- C6 counterexample: on the malformed base64 input "!!!!" the decode
error does not surface from `playAudioData` or `downloadAudio` — both
catch it and resolve normally — contradicting the claim that all three
public operations propagate it to the caller. -/
theorem malformedBase64_counterexample :
    decodeBase64 "!!!!" = Except.error JsError.invalidCharacter ∧
    playAudioData "!!!!" true
      = Except.ok (PlayOutcome.resolvedWithLoggedError JsError.invalidCharacter) ∧
    downloadAudio "!!!!" "a.wav"
      = DownloadResult.loggedError JsError.invalidCharacter := by
  decide

/-- C6 (amended): a malformed-base64 error surfaces to the caller only
from `createAudioUrl`, which has no handler; in `playAudioData` and
`downloadAudio` the surrounding catch-all logs it and the call resolves
normally. -/
theorem malformedBase64_behavior (s : String) (e : JsError) (p : Bool)
    (fn : String) (hdec : decodeBase64 s = Except.error e) :
    createAudioUrl s = Except.error e ∧
    playAudioData s p = Except.ok (PlayOutcome.resolvedWithLoggedError e) ∧
    downloadAudio s fn = DownloadResult.loggedError e := by
  refine ⟨?_, ?_, ?_⟩
  · simp [createAudioUrl, hdec, Except.map]
  · simp [playAudioData, hdec]
  · simp [downloadAudio, hdec]

/-- C6 witness: the amended behavior at the malformed input "!!!!". -/
theorem malformedBase64_behavior_witness :
    createAudioUrl "!!!!" = Except.error JsError.invalidCharacter ∧
    playAudioData "!!!!" false
      = Except.ok (PlayOutcome.resolvedWithLoggedError JsError.invalidCharacter) ∧
    downloadAudio "!!!!" "b.wav"
      = DownloadResult.loggedError JsError.invalidCharacter :=
  malformedBase64_behavior "!!!!" JsError.invalidCharacter false "b.wav" (by decide)

/-- C7: in the manual fallback the playback samples are exactly the Int16
values divided by 32768; in particular -32768 normalizes exactly to -1,
32767 to 32767/32768, and 0 to 0. -/
theorem pcmNormalization (s : String) (bytes : List Nat) (samples : List Int)
    (hdec : decodeBase64 s = Except.ok bytes)
    (hsamp : toInt16List bytes = Except.ok samples) :
    playAudioData s false
      = Except.ok (PlayOutcome.playedPCM
          (samples.map (fun v : Int => (v : ℚ) / 32768))) ∧
    normalizeSample (-32768) = -1 ∧
    normalizeSample 32767 = 32767 / 32768 ∧
    normalizeSample 0 = 0 := by
  refine ⟨?_, ?_, ?_, ?_⟩
  · have hfun : (fun v : Int => (v : ℚ) / 32768) = normalizeSample := by
      funext v
      rfl
    rw [hfun]
    simp [playAudioData, hdec, hsamp]
  · norm_num [normalizeSample]
  · norm_num [normalizeSample]
  · norm_num [normalizeSample]

/-- C7 witness: normalization of the four samples 0, 16384, -16384,
32767 decoded from a concrete payload. -/
theorem pcmNormalization_witness :
    playAudioData "AAAAQADA/38=" false
      = Except.ok (PlayOutcome.playedPCM
          (([0, 16384, -16384, 32767] : List Int).map
            (fun v : Int => (v : ℚ) / 32768))) ∧
    normalizeSample (-32768) = -1 := by
  have h := pcmNormalization "AAAAQADA/38=" [0, 0, 0, 64, 0, 192, 255, 127]
    [0, 16384, -16384, 32767] (by decide) (by decide)
  exact ⟨h.1, h.2.1⟩

/-- C10: when the decoded payload has odd byte length and the primary
decode fails, the Int16 view cannot be built, so the call resolves with a
logged `RangeError` and no playback; fallback playback happens only for
even byte lengths. -/
theorem playAudioData_oddLength (s : String) (bytes : List Nat)
    (hdec : decodeBase64 s = Except.ok bytes) :
    (bytes.length % 2 = 1 →
      playAudioData s false
        = Except.ok (PlayOutcome.resolvedWithLoggedError JsError.rangeError)) ∧
    (∀ q, playAudioData s false = Except.ok (PlayOutcome.playedPCM q) →
      bytes.length % 2 = 0) := by
  constructor
  · intro hodd
    have ht := toInt16List_odd bytes hodd
    simp [playAudioData, hdec, ht]
  · intro q hq
    by_contra hne
    have hodd : bytes.length % 2 = 1 := by omega
    have ht := toInt16List_odd bytes hodd
    simp [playAudioData, hdec, ht] at hq

/-- C10 witness: a three-byte raw payload resolves with a logged
`RangeError` instead of starting playback. -/
theorem playAudioData_oddLength_witness :
    playAudioData "AAAA" false
      = Except.ok (PlayOutcome.resolvedWithLoggedError JsError.rangeError) :=
  (playAudioData_oddLength "AAAA" [0, 0, 0] (by decide)).1 (by decide)

end AudioUtils
